import Mathlib

/-!
Shallow embedding of the Apollo Dreamview `HMIWorker`
(`modules/dreamview/backend/hmi/hmi_worker.h`).

The repository provides the interface declarations of `HMIWorker`; the
method bodies are not part of the provided sources.  Where a behaviour is
not determined by the header and its doc comments, the definitions below
are modelled from the specification's description of the
validate → mutate → notify dispatch protocol, and each such definition
says so in its doc comment.  External collaborators (the command runner,
`scripts/cyber_launch.sh`, the pub/sub transport, chassis telemetry) are
modelled as an environment record, and every outward call is recorded in
an event log so that notification order and delegation can be stated.
-/

/-- Driving modes of `apollo::canbus::Chassis::DrivingMode` that the HMI
dispatch logic distinguishes. -/
inductive DrivingMode where
  | MANUAL
  | COMPLETE_AUTO_DRIVE
  | AUTO_STEER
  | AUTO_SPEED
  deriving DecidableEq, Repr

/-- One mode of `HMIConfig.modes`: its directory path and its launches,
a mapping from derived launch name to launch file path. -/
structure ModeConfig where
  path : String
  launches : List (String × String)
  deriving DecidableEq, Repr

/-- The immutable configuration catalog (`HMIConfig`): modes, known map
and vehicle names, and the module/hardware/tool command tables (whose
metadata is opaque to the dispatcher). -/
structure HMIConfig where
  modes : List (String × ModeConfig)
  maps : List String
  vehicles : List String
  modules : List (String × String)
  hardware : List (String × String)
  tools : List (String × String)
  deriving DecidableEq, Repr

/-- The single shared mutable status record (`HMIStatus`). -/
structure HMIStatus where
  currentMode : String
  currentLaunch : String
  currentMap : String
  currentVehicle : String
  drivingMode : DrivingMode
  componentStatus : List (String × Nat)
  deriving DecidableEq, Repr

/-- Observable effects of one dispatched action: handler invocations
(identified by the registered handler id, in invocation order), calls to
`scripts/cyber_launch.sh`, pad (driving-mode) control commands, drive
event publications, and delegations to the external command runner. -/
inductive HMIEvent where
  | modeHandler (h : Nat) (name : String)
  | launchHandler (h : Nat) (name : String)
  | mapHandler (h : Nat) (name : String)
  | vehicleHandler (h : Nat) (name : String)
  | cyberLaunch (command : String) (launch : String)
  | padCommand (target : DrivingMode)
  | drivePublish (timeMs : Nat) (msg : String) (tags : List String)
  | runCommand (command : String)
  deriving DecidableEq, Repr

/-- Modelled from the spec: the external collaborators consumed by the
worker — the most recently observed chassis-reported driving mode, the
result of `scripts/cyber_launch.sh <command> <launch>`, the exit code of
the external command runner, and the success of a transport publish. -/
structure HMIEnv where
  chassisDrivingMode : DrivingMode
  cyberLaunchOk : String → String → Bool
  runExitCode : String → Int
  publishOk : Bool

/-- The worker: immutable config, shared status, and the four ordered
handler registries (handlers are identified by opaque ids). -/
structure HMIWorker where
  config : HMIConfig
  status : HMIStatus
  changeModeHandlers : List Nat
  changeLaunchHandlers : List Nat
  changeMapHandlers : List Nat
  changeVehicleHandlers : List Nat

/-- Result of one dispatched action: the worker afterwards, the emitted
events in order, and the success flag returned to the caller. -/
structure StepResult where
  worker : HMIWorker
  events : List HMIEvent
  ok : Bool

/-- `RegisterChangeModeHandler` appends to the registry
(`emplace_back`). -/
def RegisterChangeModeHandler (w : HMIWorker) (h : Nat) : HMIWorker :=
  { w with changeModeHandlers := w.changeModeHandlers ++ [h] }

/-- `RegisterChangeLaunchHandler` appends to the registry. -/
def RegisterChangeLaunchHandler (w : HMIWorker) (h : Nat) : HMIWorker :=
  { w with changeLaunchHandlers := w.changeLaunchHandlers ++ [h] }

/-- `RegisterChangeMapHandler` appends to the registry. -/
def RegisterChangeMapHandler (w : HMIWorker) (h : Nat) : HMIWorker :=
  { w with changeMapHandlers := w.changeMapHandlers ++ [h] }

/-- `RegisterChangeVehicleHandler` appends to the registry. -/
def RegisterChangeVehicleHandler (w : HMIWorker) (h : Nat) : HMIWorker :=
  { w with changeVehicleHandlers := w.changeVehicleHandlers ++ [h] }

/-- Modelled from the spec: `HMIWorker::ChangeToMode` (body not in the
provided sources).  Validation: the name must be a key of
`config.modes`; on failure nothing is mutated and no event is emitted.
Otherwise the previous mode is torn down (its active launch stopped via
`cyber_launch.sh`, `currentLaunch` cleared), `currentMode` is set, the
new mode's default launch (its first launch entry, if any) is set up and
started, and every registered mode-change handler fires in registration
order with the new mode's name. -/
def ChangeToMode (w : HMIWorker) (modeName : String) : StepResult :=
  match w.config.modes.lookup modeName with
  | none => ⟨w, [], false⟩
  | some mc =>
      let teardown : List HMIEvent :=
        if w.status.currentMode = "" then []
        else if w.status.currentLaunch = "" then []
        else [HMIEvent.cyberLaunch "stop" w.status.currentLaunch]
      let setup : List HMIEvent :=
        match mc.launches.head? with
        | none => []
        | some dl => [HMIEvent.cyberLaunch "start" dl.1]
      let newLaunch : String :=
        match mc.launches.head? with
        | none => ""
        | some dl => dl.1
      let st := { w.status with
                  currentMode := modeName
                  currentLaunch := newLaunch }
      let fired := w.changeModeHandlers.map fun h => HMIEvent.modeHandler h modeName
      ⟨{ w with status := st }, teardown ++ setup ++ fired, true⟩

/-- Modelled from the spec: `HMIWorker::ChangeToLaunch` (body not in the
provided sources).  Validation: fails if `currentMode` is empty or the
name is not a key of the current mode's launches.  Otherwise the active
launch (if any) is stopped and the new one started through
`cyber_launch.sh`, `currentLaunch` is set to the requested name, and the
launch-change handlers fire in registration order.  The external stop
and start results are surfaced only through the returned flag; the
status mutation is never rolled back. -/
def ChangeToLaunch (env : HMIEnv) (w : HMIWorker) (launchName : String) :
    StepResult :=
  if w.status.currentMode = "" then ⟨w, [], false⟩
  else
    match w.config.modes.lookup w.status.currentMode with
    | none => ⟨w, [], false⟩
    | some mc =>
        match mc.launches.lookup launchName with
        | none => ⟨w, [], false⟩
        | some _ =>
            let stopEvents : List HMIEvent :=
              if w.status.currentLaunch = "" then []
              else [HMIEvent.cyberLaunch "stop" w.status.currentLaunch]
            let stopOk : Bool :=
              if w.status.currentLaunch = "" then true
              else env.cyberLaunchOk "stop" w.status.currentLaunch
            let startOk := env.cyberLaunchOk "start" launchName
            let st := { w.status with currentLaunch := launchName }
            let fired := w.changeLaunchHandlers.map fun h =>
              HMIEvent.launchHandler h launchName
            ⟨{ w with status := st },
             stopEvents ++ [HMIEvent.cyberLaunch "start" launchName] ++ fired,
             stopOk && startOk⟩

/-- Modelled from the spec: `HMIWorker::ChangeToMap` (body not in the
provided sources).  Fails if the name is not a known map; otherwise sets
`currentMap` and fires the map-change handlers.  No external side
effect beyond notification. -/
def ChangeToMap (w : HMIWorker) (mapName : String) : StepResult :=
  if w.config.maps.contains mapName then
    ⟨{ w with status := { w.status with currentMap := mapName } },
     w.changeMapHandlers.map fun h => HMIEvent.mapHandler h mapName, true⟩
  else ⟨w, [], false⟩

/-- Modelled from the spec: `HMIWorker::ChangeToVehicle` (body not in
the provided sources).  Fails if the name is not a known vehicle;
otherwise sets `currentVehicle` and fires the vehicle-change
handlers. -/
def ChangeToVehicle (w : HMIWorker) (vehicleName : String) : StepResult :=
  if w.config.vehicles.contains vehicleName then
    ⟨{ w with status := { w.status with currentVehicle := vehicleName } },
     w.changeVehicleHandlers.map fun h => HMIEvent.vehicleHandler h vehicleName,
     true⟩
  else ⟨w, [], false⟩

/-- Guard of `ChangeToDrivingMode`: only MANUAL ↔ COMPLETE_AUTO_DRIVE
transitions, keyed off the most recently observed chassis-reported
driving mode. -/
def drivingModeTransitionAllowed (observed target : DrivingMode) : Bool :=
  (observed = DrivingMode.MANUAL && target = DrivingMode.COMPLETE_AUTO_DRIVE) ||
  (observed = DrivingMode.COMPLETE_AUTO_DRIVE && target = DrivingMode.MANUAL)

/-- Modelled from the spec: `HMIWorker::ChangeToDrivingMode` (body not
in the provided sources).  If the guard over the observed chassis mode
admits the transition, publish exactly one pad (driving-mode) control
command through `pad_writer_` and return true; the `drivingMode` status
field is not touched here — it is updated later from telemetry.  A
rejected call returns false and publishes nothing. -/
def ChangeToDrivingMode (env : HMIEnv) (w : HMIWorker) (target : DrivingMode) :
    StepResult :=
  if drivingModeTransitionAllowed env.chassisDrivingMode target then
    ⟨w, [HMIEvent.padCommand target], true⟩
  else ⟨w, [], false⟩

/-- Modelled from the spec: the common shape of the three Run*Command
methods (bodies not in the provided sources).  Look the name up in the
config table; if absent return a not-found failure (`none`) without
invoking the external runner; otherwise delegate the command string
uninterpreted to the runner and return its exit code verbatim. -/
def RunComponentCommand (env : HMIEnv) (table : List (String × String))
    (name command : String) : Option Int × List HMIEvent :=
  match table.lookup name with
  | none => (none, [])
  | some _ => (some (env.runExitCode command), [HMIEvent.runCommand command])

/-- `HMIWorker::RunModuleCommand`, over `config.modules`. -/
def RunModuleCommand (env : HMIEnv) (w : HMIWorker) (module command : String) :
    Option Int × List HMIEvent :=
  RunComponentCommand env w.config.modules module command

/-- `HMIWorker::RunHardwareCommand`, over `config.hardware`. -/
def RunHardwareCommand (env : HMIEnv) (w : HMIWorker) (hardware command : String) :
    Option Int × List HMIEvent :=
  RunComponentCommand env w.config.hardware hardware command

/-- `HMIWorker::RunToolCommand`, over `config.tools`. -/
def RunToolCommand (env : HMIEnv) (w : HMIWorker) (tool command : String) :
    Option Int × List HMIEvent :=
  RunComponentCommand env w.config.tools tool command

/-- Modelled from the spec: `HMIWorker::SubmitDriveEvent` (body not in
the provided sources).  Builds one `DriveEvent` record verbatim from the
inputs and publishes it exactly once through `drive_event_writer_`; a
publish failure is only surfaced through the result and the publish is
never retried. -/
def SubmitDriveEvent (env : HMIEnv) (w : HMIWorker) (eventTimeMs : Nat)
    (eventMsg : String) (eventTypes : List String) : StepResult :=
  ⟨w, [HMIEvent.drivePublish eventTimeMs eventMsg eventTypes], env.publishOk⟩

/-- `HMIWorker::GetStatus` returns a value copy of the shared status
record, taken under the reader lock; the worker itself is unchanged.
The pair makes the frame explicit: the snapshot and the (unchanged)
worker after the call. -/
def GetStatus (w : HMIWorker) : HMIStatus × HMIWorker := (w.status, w)

/-- Modelled from the spec: `HMIWorker::UpdateSystemStatus` merges a
periodic telemetry/monitoring sample into the status record — the
chassis-reported driving mode and the per-component health map. -/
def UpdateSystemStatus (w : HMIWorker) (observed : DrivingMode)
    (components : List (String × Nat)) : HMIWorker :=
  { w with
    status := { w.status with
                drivingMode := observed
                componentStatus := components } }

/-- The tagged action variant dispatched by `HMIWorker::Trigger`. -/
inductive HMIAction where
  | changeMode (name : String)
  | changeLaunch (name : String)
  | changeMap (name : String)
  | changeVehicle (name : String)
  | changeDrivingMode (target : DrivingMode)
  | runModuleCommand (name command : String)
  | runHardwareCommand (name command : String)
  | runToolCommand (name command : String)
  | submitDriveEvent (timeMs : Nat) (msg : String) (tags : List String)
  deriving DecidableEq, Repr

/-- Modelled from the spec: `HMIWorker::Trigger` dispatches the action
to the matching operation; for the three Run* actions the success flag
reports whether the component was found. -/
def Trigger (env : HMIEnv) (w : HMIWorker) (a : HMIAction) : StepResult :=
  match a with
  | .changeMode n => ChangeToMode w n
  | .changeLaunch n => ChangeToLaunch env w n
  | .changeMap n => ChangeToMap w n
  | .changeVehicle n => ChangeToVehicle w n
  | .changeDrivingMode t => ChangeToDrivingMode env w t
  | .runModuleCommand n c =>
      let r := RunModuleCommand env w n c
      ⟨w, r.2, r.1.isSome⟩
  | .runHardwareCommand n c =>
      let r := RunHardwareCommand env w n c
      ⟨w, r.2, r.1.isSome⟩
  | .runToolCommand n c =>
      let r := RunToolCommand env w n c
      ⟨w, r.2, r.1.isSome⟩
  | .submitDriveEvent t m tags => SubmitDriveEvent env w t m tags

/-- The launch table an action's launch-name operand is validated
against: the current mode's launches, empty when no mode is active or
the current mode is unknown. -/
def relevantLaunches (cfg : HMIConfig) (st : HMIStatus) : List (String × String) :=
  if st.currentMode = "" then []
  else
    match cfg.modes.lookup st.currentMode with
    | none => []
    | some mc => mc.launches

/-- An action whose operand name is absent from the relevant config set
or map (unknown mode, launch, map, vehicle, module, hardware or
tool). -/
def operandUnknown (cfg : HMIConfig) (st : HMIStatus) : HMIAction → Prop
  | .changeMode n => cfg.modes.lookup n = none
  | .changeLaunch n => (relevantLaunches cfg st).lookup n = none
  | .changeMap n => n ∉ cfg.maps
  | .changeVehicle n => n ∉ cfg.vehicles
  | .changeDrivingMode _ => False
  | .runModuleCommand n _ => cfg.modules.lookup n = none
  | .runHardwareCommand n _ => cfg.hardware.lookup n = none
  | .runToolCommand n _ => cfg.tools.lookup n = none
  | .submitDriveEvent _ _ _ => False

/-- Is an event an invocation of a registered change handler? -/
def isHandlerEvent : HMIEvent → Bool
  | .modeHandler _ _ => true
  | .launchHandler _ _ => true
  | .mapHandler _ _ => true
  | .vehicleHandler _ _ => true
  | _ => false

/-- Capitalize the first character of a word. -/
def capitalizeWordChars : List Char → List Char
  | [] => []
  | c :: cs => Char.toUpper c :: cs

/-- Split a character list on underscores. -/
def splitOnUnderscore : List Char → List (List Char)
  | [] => [[]]
  | c :: cs =>
      let r := splitOnUnderscore cs
      if c = '_' then [] :: r
      else
        match r with
        | [] => [[c]]
        | word :: ws => (c :: word) :: ws

/-- Name-derivation policy documented on `HMIWorker::LoadModesConfig`:
replace underscores with spaces and capitalize each word
(`mkz_standard` becomes `Mkz Standard`). -/
def TitleCase (s : String) : String :=
  String.mk (List.intercalate [' ']
    ((splitOnUnderscore s.data).map capitalizeWordChars))

/-- One mode directory of the modes configuration source: its base name
and the file names it contains. -/
structure ModeDirEntry where
  dirName : String
  launchFiles : List String
  deriving DecidableEq, Repr

/-- Modelled from the spec and the doc comment of
`HMIWorker::LoadModesConfig` (body not in the provided sources): a mode
directory becomes a `ModeConfig` keyed by the title-cased directory
name, and each contained `.launch` file becomes a launches entry keyed
by the title-cased file base name, mapping to the file's full path. -/
def hasLaunchExtension (f : String) : Bool :=
  ".launch".data.isSuffixOf f.data

/-- Drop the trailing `.launch` extension from a file name. -/
def dropLaunchExtension (f : String) : String :=
  String.mk (f.data.take (f.data.length - 7))

/-- Load one mode directory into a `modes` entry, per the doc comment of
`HMIWorker::LoadModesConfig`. -/
def LoadModeDir (modesConfigPath : String) (d : ModeDirEntry) :
    String × ModeConfig :=
  (TitleCase d.dirName,
   { path := modesConfigPath ++ "/" ++ d.dirName
     launches := d.launchFiles.filterMap fun f =>
       if hasLaunchExtension f then
         some (TitleCase (dropLaunchExtension f),
               modesConfigPath ++ "/" ++ d.dirName ++ "/" ++ f)
       else none })

/-- `HMIWorker::LoadModesConfig` over a directory listing: every mode
directory under the modes config path is loaded into `HMIConfig.modes`
by `LoadModeDir`. -/
def LoadModesConfig (modesConfigPath : String) (dirs : List ModeDirEntry) :
    List (String × ModeConfig) :=
  dirs.map (LoadModeDir modesConfigPath)

/-- The initial status: empty mode/launch/map/vehicle, MANUAL driving
mode, no component health entries. -/
def InitStatus : HMIStatus :=
  { currentMode := ""
    currentLaunch := ""
    currentMap := ""
    currentVehicle := ""
    drivingMode := DrivingMode.MANUAL
    componentStatus := [] }

/-- A small concrete configuration used to instantiate theorems. -/
def sampleModeConfig : ModeConfig :=
  { path := "/apollo/modes/mkz_standard"
    launches := [("Close Loop", "/apollo/modes/mkz_standard/close_loop.launch"),
                 ("Map Collection", "/apollo/modes/mkz_standard/map_collection.launch")] }

/-- A small concrete config catalog used to instantiate theorems. -/
def sampleConfig : HMIConfig :=
  { modes := [("Mkz Standard", sampleModeConfig)]
    maps := ["Sunnyvale Big Loop"]
    vehicles := ["Mkz Example"]
    modules := [("GPS", "modules/drivers/gnss")]
    hardware := [("CAN", "modules/monitor/hardware/can")]
    tools := [("RTKRecorder", "modules/tools/record_play")] }

/-- A concrete worker in the initial status with registered handlers. -/
def sampleWorker : HMIWorker :=
  { config := sampleConfig
    status := InitStatus
    changeModeHandlers := [0, 1]
    changeLaunchHandlers := [2]
    changeMapHandlers := [3]
    changeVehicleHandlers := [4] }

/-- A concrete environment: chassis reports MANUAL, all external
commands succeed. -/
def sampleEnv : HMIEnv :=
  { chassisDrivingMode := DrivingMode.MANUAL
    cyberLaunchOk := fun _ _ => true
    runExitCode := fun _ => 0
    publishOk := true }

/-- Handler events of a mode-change notification pass the filter. -/
theorem filter_isHandlerEvent_modeHandler (hs : List Nat) (m : String) :
    (hs.map fun h => HMIEvent.modeHandler h m).filter isHandlerEvent =
      hs.map fun h => HMIEvent.modeHandler h m := by
  induction hs with
  | nil => rfl
  | cons a t ih => simp [isHandlerEvent, ih]

/-- C5: `LoadModesConfig` derives every mode and launch display name
from the directory/file base name by replacing underscores with spaces
and capitalizing each word: a modes directory holding `mkz_standard/`
with `close_loop.launch` and `map_collection.launch` loads as mode
`Mkz Standard` with launches `Close Loop` and `Map Collection`, each
mapping to the launch file's path. -/
theorem LoadModesConfig_mkz_standard_example :
    LoadModesConfig "/path/to/modes"
      [{ dirName := "mkz_standard"
         launchFiles := ["close_loop.launch", "map_collection.launch"] }] =
      [("Mkz Standard",
        { path := "/path/to/modes/mkz_standard"
          launches :=
            [("Close Loop", "/path/to/modes/mkz_standard/close_loop.launch"),
             ("Map Collection",
              "/path/to/modes/mkz_standard/map_collection.launch")] })] := by
  decide

/-- C9: `SubmitDriveEvent` publishes exactly one `DriveEvent` record
whose fields equal the three inputs verbatim; the publish result is
surfaced to the caller as the returned flag, the status is untouched,
and there is exactly one publish regardless of the result (no
retry). -/
theorem SubmitDriveEvent_publishes_once (env : HMIEnv) (w : HMIWorker)
    (t : Nat) (msg : String) (tags : List String) :
    (SubmitDriveEvent env w t msg tags).events =
        [HMIEvent.drivePublish t msg tags] ∧
    (SubmitDriveEvent env w t msg tags).ok = env.publishOk ∧
    (SubmitDriveEvent env w t msg tags).worker = w :=
  ⟨rfl, rfl, rfl⟩

/-- C10: `GetStatus` returns a value snapshot equal to the internal
status record and leaves the worker — its status and its config —
unchanged; a second read after the first still returns the same
snapshot. -/
theorem GetStatus_value_copy (w : HMIWorker) :
    (GetStatus w).1 = w.status ∧
    ((GetStatus w).2).status = w.status ∧
    ((GetStatus w).2).config = w.config ∧
    (GetStatus ((GetStatus w).2)).1 = (GetStatus w).1 :=
  ⟨rfl, rfl, rfl, rfl⟩

/-- C1: an action whose operand name is absent from the relevant config
set or map is rejected before any mutation: the status readable via
`GetStatus` afterwards equals the status before, no event at all is
emitted (in particular no registered change handler fires), and the
caller receives a failure. -/
theorem Trigger_rejects_unknown_operand (env : HMIEnv) (w : HMIWorker)
    (a : HMIAction) (h : operandUnknown w.config w.status a) :
    (GetStatus (Trigger env w a).worker).1 = (GetStatus w).1 ∧
    (Trigger env w a).events = [] ∧
    (Trigger env w a).ok = false := by
  cases a with
  | changeMode n =>
      simp only [operandUnknown] at h
      simp [Trigger, ChangeToMode, h, GetStatus]
  | changeLaunch n =>
      simp only [operandUnknown, relevantLaunches] at h
      by_cases hm : w.status.currentMode = ""
      · simp [Trigger, ChangeToLaunch, hm, GetStatus]
      · rw [if_neg hm] at h
        cases hc : w.config.modes.lookup w.status.currentMode with
        | none => simp [Trigger, ChangeToLaunch, hm, hc, GetStatus]
        | some mc =>
            rw [hc] at h
            simp [Trigger, ChangeToLaunch, hm, hc, h, GetStatus]
  | changeMap n =>
      simp only [operandUnknown] at h
      simp [Trigger, ChangeToMap, h, GetStatus]
  | changeVehicle n =>
      simp only [operandUnknown] at h
      simp [Trigger, ChangeToVehicle, h, GetStatus]
  | changeDrivingMode t => exact h.elim
  | runModuleCommand n c =>
      simp only [operandUnknown] at h
      simp [Trigger, RunModuleCommand, RunComponentCommand, h, GetStatus]
  | runHardwareCommand n c =>
      simp only [operandUnknown] at h
      simp [Trigger, RunHardwareCommand, RunComponentCommand, h, GetStatus]
  | runToolCommand n c =>
      simp only [operandUnknown] at h
      simp [Trigger, RunToolCommand, RunComponentCommand, h, GetStatus]
  | submitDriveEvent t m tags => exact h.elim

/-- Witness for C1 at a concrete rejected action: mode name `Nope` is
not in the sample config, and the dispatch leaves the status intact,
emits nothing and fails. -/
theorem Trigger_rejects_unknown_operand_witness :
    operandUnknown sampleWorker.config sampleWorker.status
        (HMIAction.changeMode "Nope") ∧
    ((GetStatus (Trigger sampleEnv sampleWorker
          (HMIAction.changeMode "Nope")).worker).1 =
        (GetStatus sampleWorker).1 ∧
      (Trigger sampleEnv sampleWorker (HMIAction.changeMode "Nope")).events = [] ∧
      (Trigger sampleEnv sampleWorker (HMIAction.changeMode "Nope")).ok = false) :=
  ⟨by simp only [operandUnknown]; rfl,
   Trigger_rejects_unknown_operand sampleEnv sampleWorker
     (HMIAction.changeMode "Nope") (by simp only [operandUnknown]; rfl)⟩

/-- C3: `ChangeToDrivingMode(target)` succeeds — returns true and
publishes exactly one pad control command — if and only if the
transition is MANUAL ↔ COMPLETE_AUTO_DRIVE and the most recently
observed chassis-reported driving mode differs from the target; a
rejected call returns false and publishes nothing; the worker state is
untouched, so a second call under the same observed chassis state
behaves identically (the operation is not idempotent). -/
theorem ChangeToDrivingMode_guard_spec (env : HMIEnv) (w : HMIWorker)
    (target : DrivingMode) :
    (((Trigger env w (HMIAction.changeDrivingMode target)).ok = true ∧
      (Trigger env w (HMIAction.changeDrivingMode target)).events =
        [HMIEvent.padCommand target]) ↔
      (((env.chassisDrivingMode = DrivingMode.MANUAL ∧
          target = DrivingMode.COMPLETE_AUTO_DRIVE) ∨
        (env.chassisDrivingMode = DrivingMode.COMPLETE_AUTO_DRIVE ∧
          target = DrivingMode.MANUAL)) ∧
        env.chassisDrivingMode ≠ target)) ∧
    ((Trigger env w (HMIAction.changeDrivingMode target)).ok = false →
      (Trigger env w (HMIAction.changeDrivingMode target)).events = []) ∧
    (Trigger env w (HMIAction.changeDrivingMode target)).worker = w ∧
    Trigger env (Trigger env w (HMIAction.changeDrivingMode target)).worker
        (HMIAction.changeDrivingMode target) =
      Trigger env w (HMIAction.changeDrivingMode target) := by
  cases hco : env.chassisDrivingMode <;> cases target <;>
    simp [Trigger, ChangeToDrivingMode, drivingModeTransitionAllowed, hco]

/-- Witness for C3: with the chassis reporting MANUAL, requesting
COMPLETE_AUTO_DRIVE succeeds and publishes one pad command, and doing it
again right away (chassis still reporting MANUAL) succeeds again. -/
theorem ChangeToDrivingMode_guard_witness :
    (Trigger sampleEnv sampleWorker
        (HMIAction.changeDrivingMode DrivingMode.COMPLETE_AUTO_DRIVE)).ok = true ∧
    (Trigger sampleEnv sampleWorker
        (HMIAction.changeDrivingMode DrivingMode.COMPLETE_AUTO_DRIVE)).events =
      [HMIEvent.padCommand DrivingMode.COMPLETE_AUTO_DRIVE] ∧
    (Trigger sampleEnv
        (Trigger sampleEnv sampleWorker
          (HMIAction.changeDrivingMode DrivingMode.COMPLETE_AUTO_DRIVE)).worker
        (HMIAction.changeDrivingMode DrivingMode.COMPLETE_AUTO_DRIVE)).ok = true := by
  have t := ChangeToDrivingMode_guard_spec sampleEnv sampleWorker
    DrivingMode.COMPLETE_AUTO_DRIVE
  have hg := t.1.mpr ⟨Or.inl ⟨rfl, rfl⟩, by decide⟩
  exact ⟨hg.1, hg.2, by rw [t.2.2.2]; exact hg.1⟩

/-- C4: a valid `ChangeToLaunch` always leaves `currentLaunch` equal to
the requested launch name, and the resulting worker does not depend on
the external command results at all — a failing stop or start is never
rolled back. -/
theorem ChangeToLaunch_no_rollback (env env2 : HMIEnv) (w : HMIWorker)
    (n : String) (mc : ModeConfig) (p : String)
    (hm : ¬ w.status.currentMode = "")
    (hc : w.config.modes.lookup w.status.currentMode = some mc)
    (hl : mc.launches.lookup n = some p) :
    (Trigger env w (HMIAction.changeLaunch n)).worker.status.currentLaunch = n ∧
    (Trigger env w (HMIAction.changeLaunch n)).worker =
      (Trigger env2 w (HMIAction.changeLaunch n)).worker := by
  simp [Trigger, ChangeToLaunch, hm, hc, hl]

/-- The sample worker after entering mode `Mkz Standard` directly. -/
def sampleWorkerInMode : HMIWorker :=
  { sampleWorker with
    status := { InitStatus with currentMode := "Mkz Standard" } }

/-- An environment whose external launch commands all fail. -/
def sampleEnvFail : HMIEnv :=
  { chassisDrivingMode := DrivingMode.MANUAL
    cyberLaunchOk := fun _ _ => false
    runExitCode := fun _ => 255
    publishOk := false }

/-- Witness for C4: requesting `Close Loop` in mode `Mkz Standard`
leaves `currentLaunch = "Close Loop"`, also when every external command
fails. -/
theorem ChangeToLaunch_no_rollback_witness :
    ¬ sampleWorkerInMode.status.currentMode = "" ∧
    ((Trigger sampleEnvFail sampleWorkerInMode
        (HMIAction.changeLaunch "Close Loop")).worker.status.currentLaunch =
        "Close Loop" ∧
      (Trigger sampleEnvFail sampleWorkerInMode
          (HMIAction.changeLaunch "Close Loop")).worker =
        (Trigger sampleEnv sampleWorkerInMode
          (HMIAction.changeLaunch "Close Loop")).worker) :=
  ⟨by decide,
   ChangeToLaunch_no_rollback sampleEnvFail sampleEnv sampleWorkerInMode
     "Close Loop" sampleModeConfig
     "/apollo/modes/mkz_standard/close_loop.launch" (by decide) rfl rfl⟩

/-- A valid `ChangeToMode` fires exactly the registered mode-change
handlers, in registration order, with the new mode's name; it succeeds
and preserves the config and the handler registry. -/
theorem ChangeToMode_valid_spec (w : HMIWorker) (m : String) (mc : ModeConfig)
    (hc : w.config.modes.lookup m = some mc) :
    (ChangeToMode w m).events.filter isHandlerEvent =
      (w.changeModeHandlers.map fun h => HMIEvent.modeHandler h m) ∧
    (ChangeToMode w m).ok = true ∧
    (ChangeToMode w m).worker.config = w.config ∧
    (ChangeToMode w m).worker.changeModeHandlers = w.changeModeHandlers := by
  refine ⟨?_, by simp [ChangeToMode, hc], by simp [ChangeToMode, hc],
    by simp [ChangeToMode, hc]⟩
  simp only [ChangeToMode, hc]
  rw [List.filter_append, List.filter_append, filter_isHandlerEvent_modeHandler]
  cases mc.launches.head? <;> split_ifs <;> rfl

/-- C7: calling `ChangeToMode` twice in a row with the same valid mode
name fires the registered mode-change handlers on both calls — the
repeated transition is not suppressed — and on each call the handler
events are exactly the registry, in registration order, each carrying
the new mode's name. -/
theorem ChangeToMode_twice_fires_handlers (env env2 : HMIEnv) (w : HMIWorker)
    (m : String) (mc : ModeConfig)
    (hc : w.config.modes.lookup m = some mc) :
    ((Trigger env w (HMIAction.changeMode m)).events.filter isHandlerEvent =
      (w.changeModeHandlers.map fun h => HMIEvent.modeHandler h m)) ∧
    (Trigger env w (HMIAction.changeMode m)).ok = true ∧
    ((Trigger env2 (Trigger env w (HMIAction.changeMode m)).worker
        (HMIAction.changeMode m)).events.filter isHandlerEvent =
      (w.changeModeHandlers.map fun h => HMIEvent.modeHandler h m)) ∧
    (Trigger env2 (Trigger env w (HMIAction.changeMode m)).worker
        (HMIAction.changeMode m)).ok = true := by
  have h1 := ChangeToMode_valid_spec w m mc hc
  have h2 := ChangeToMode_valid_spec (ChangeToMode w m).worker m mc
    (by rw [h1.2.2.1]; exact hc)
  refine ⟨h1.1, h1.2.1, ?_, h2.2.1⟩
  show (ChangeToMode (ChangeToMode w m).worker m).events.filter isHandlerEvent = _
  rw [h2.1, h1.2.2.2]

/-- Witness for C7: two consecutive `ChangeToMode "Mkz Standard"` calls
on the sample worker each fire handlers 0 and 1, in order, with the new
mode's name. -/
theorem ChangeToMode_twice_fires_handlers_witness :
    ((Trigger sampleEnv sampleWorker
        (HMIAction.changeMode "Mkz Standard")).events.filter isHandlerEvent =
      [HMIEvent.modeHandler 0 "Mkz Standard",
       HMIEvent.modeHandler 1 "Mkz Standard"]) ∧
    ((Trigger sampleEnv
        (Trigger sampleEnv sampleWorker
          (HMIAction.changeMode "Mkz Standard")).worker
        (HMIAction.changeMode "Mkz Standard")).events.filter isHandlerEvent =
      [HMIEvent.modeHandler 0 "Mkz Standard",
       HMIEvent.modeHandler 1 "Mkz Standard"]) := by
  have t := ChangeToMode_twice_fires_handlers sampleEnv sampleEnv sampleWorker
    "Mkz Standard" sampleModeConfig rfl
  exact ⟨t.1, t.2.2.1⟩

/-- C8: each of `RunModuleCommand`, `RunHardwareCommand` and
`RunToolCommand` fails with a not-found result and does not invoke the
external runner when the component name is absent from the matching
config table, and otherwise delegates the command string uninterpreted
to the runner and returns its exit code verbatim. -/
theorem RunCommands_lookup_spec (env : HMIEnv) (w : HMIWorker) (n c : String) :
    ((w.config.modules.lookup n = none →
        RunModuleCommand env w n c = (none, [])) ∧
      ∀ md, w.config.modules.lookup n = some md →
        RunModuleCommand env w n c =
          (some (env.runExitCode c), [HMIEvent.runCommand c])) ∧
    ((w.config.hardware.lookup n = none →
        RunHardwareCommand env w n c = (none, [])) ∧
      ∀ md, w.config.hardware.lookup n = some md →
        RunHardwareCommand env w n c =
          (some (env.runExitCode c), [HMIEvent.runCommand c])) ∧
    ((w.config.tools.lookup n = none →
        RunToolCommand env w n c = (none, [])) ∧
      ∀ md, w.config.tools.lookup n = some md →
        RunToolCommand env w n c =
          (some (env.runExitCode c), [HMIEvent.runCommand c])) := by
  refine ⟨⟨fun h => ?_, fun md h => ?_⟩, ⟨fun h => ?_, fun md h => ?_⟩,
    ⟨fun h => ?_, fun md h => ?_⟩⟩ <;>
    simp [RunModuleCommand, RunHardwareCommand, RunToolCommand,
      RunComponentCommand, h]

/-- Witness for C8: the sample config has module `GPS` but no module
`Nope`; the first call fails not-found with no delegation, the second
returns the runner's exit code for the untouched command string. -/
theorem RunCommands_lookup_witness :
    RunModuleCommand sampleEnv sampleWorker "Nope" "start" = (none, []) ∧
    RunModuleCommand sampleEnv sampleWorker "GPS" "start" =
      (some 0, [HMIEvent.runCommand "start"]) :=
  ⟨(RunCommands_lookup_spec sampleEnv sampleWorker "Nope" "start").1.1 rfl,
   (RunCommands_lookup_spec sampleEnv sampleWorker "GPS" "start").1.2
     "modules/drivers/gnss" rfl⟩

/-- The status-store invariant of the dispatcher: `currentLaunch` is
non-empty only if `currentMode` is non-empty and `currentLaunch` is a
key of the current mode's launches. -/
def LaunchInvariant (cfg : HMIConfig) (st : HMIStatus) : Prop :=
  st.currentLaunch ≠ "" →
    st.currentMode ≠ "" ∧
    ∃ mc, cfg.modes.lookup st.currentMode = some mc ∧
      (mc.launches.lookup st.currentLaunch).isSome = true

/-- Worker states reachable from a start state through any sequence of
dispatched actions and telemetry merges. -/
inductive HMIReachable : HMIWorker → HMIWorker → Prop
  | refl (w : HMIWorker) : HMIReachable w w
  | trigger (env : HMIEnv) (a : HMIAction) {w0 w : HMIWorker} :
      HMIReachable w0 w → HMIReachable w0 (Trigger env w a).worker
  | telemetry (observed : DrivingMode) (components : List (String × Nat))
      {w0 w : HMIWorker} :
      HMIReachable w0 w →
      HMIReachable w0 (UpdateSystemStatus w observed components)

/-- No dispatched action replaces the immutable config. -/
theorem Trigger_preserves_config (env : HMIEnv) (w : HMIWorker) (a : HMIAction) :
    (Trigger env w a).worker.config = w.config := by
  cases a with
  | changeMode n =>
      cases hc : w.config.modes.lookup n <;> simp [Trigger, ChangeToMode, hc]
  | changeLaunch n =>
      by_cases hm : w.status.currentMode = ""
      · simp [Trigger, ChangeToLaunch, hm]
      · cases hc : w.config.modes.lookup w.status.currentMode with
        | none => simp [Trigger, ChangeToLaunch, hm, hc]
        | some mc =>
            cases hl : mc.launches.lookup n <;>
              simp [Trigger, ChangeToLaunch, hm, hc, hl]
  | changeMap n => simp only [Trigger, ChangeToMap]; split <;> rfl
  | changeVehicle n => simp only [Trigger, ChangeToVehicle]; split <;> rfl
  | changeDrivingMode t =>
      simp only [Trigger, ChangeToDrivingMode]; split <;> rfl
  | runModuleCommand n c => rfl
  | runHardwareCommand n c => rfl
  | runToolCommand n c => rfl
  | submitDriveEvent t m tags => rfl

/-- Reachability never replaces the immutable config. -/
theorem HMIReachable_preserves_config {w0 w : HMIWorker}
    (hr : HMIReachable w0 w) : w.config = w0.config := by
  induction hr with
  | refl w' => rfl
  | trigger env a hr ih => rw [Trigger_preserves_config]; exact ih
  | telemetry observed components hr ih => exact ih

/-- The invariant only reads `currentMode` and `currentLaunch`, so it
transfers along any status change that preserves those two fields. -/
theorem LaunchInvariant_of_fields (cfg : HMIConfig) (st st' : HMIStatus)
    (h1 : st'.currentMode = st.currentMode)
    (h2 : st'.currentLaunch = st.currentLaunch)
    (h : LaunchInvariant cfg st) : LaunchInvariant cfg st' := by
  intro hne
  rw [h2] at hne
  rw [h1, h2]
  exact h hne

/-- One dispatched action preserves the launch invariant, provided mode
names in the config are non-empty (the empty string is the store's
sentinel for no mode, so it is never a config key). -/
theorem Trigger_preserves_LaunchInvariant (env : HMIEnv) (w : HMIWorker)
    (a : HMIAction) (hwf : w.config.modes.lookup "" = none)
    (hinv : LaunchInvariant w.config w.status) :
    LaunchInvariant w.config (Trigger env w a).worker.status := by
  cases a with
  | changeMode n =>
      cases hc : w.config.modes.lookup n with
      | none =>
          have hst : (Trigger env w (HMIAction.changeMode n)).worker.status =
              w.status := by
            simp [Trigger, ChangeToMode, hc]
          rw [hst]; exact hinv
      | some mc =>
          have hn : n ≠ "" := by
            intro h
            rw [h, hwf] at hc
            cases hc
          have hmode : (Trigger env w (HMIAction.changeMode n)).worker.status.currentMode = n := by
            simp [Trigger, ChangeToMode, hc]
          have hlaunch : (Trigger env w (HMIAction.changeMode n)).worker.status.currentLaunch =
              (match mc.launches.head? with
                | none => ""
                | some dl => dl.1) := by
            simp [Trigger, ChangeToMode, hc]
          intro hne
          rw [hlaunch] at hne
          rw [hmode, hlaunch]
          cases hh : mc.launches.head? with
          | none => rw [hh] at hne; exact absurd rfl hne
          | some dl =>
              cases hml : mc.launches with
              | nil => rw [hml] at hh; cases hh
              | cons hd tl =>
                  rw [hml] at hh
                  have hd1 : hd = dl := by simpa using hh
                  refine ⟨hn, mc, hc, ?_⟩
                  rw [hml, ← hd1]
                  simp [List.lookup]
  | changeLaunch n =>
      by_cases hm : w.status.currentMode = ""
      · have hst : (Trigger env w (HMIAction.changeLaunch n)).worker.status =
            w.status := by
          simp [Trigger, ChangeToLaunch, hm]
        rw [hst]; exact hinv
      · cases hc : w.config.modes.lookup w.status.currentMode with
        | none =>
            have hst : (Trigger env w (HMIAction.changeLaunch n)).worker.status =
                w.status := by
              simp [Trigger, ChangeToLaunch, hm, hc]
            rw [hst]; exact hinv
        | some mc =>
            cases hl : mc.launches.lookup n with
            | none =>
                have hst : (Trigger env w (HMIAction.changeLaunch n)).worker.status =
                    w.status := by
                  simp [Trigger, ChangeToLaunch, hm, hc, hl]
                rw [hst]; exact hinv
            | some p =>
                have hmode : (Trigger env w (HMIAction.changeLaunch n)).worker.status.currentMode =
                    w.status.currentMode := by
                  simp [Trigger, ChangeToLaunch, hm, hc, hl]
                have hlaunch : (Trigger env w (HMIAction.changeLaunch n)).worker.status.currentLaunch =
                    n := by
                  simp [Trigger, ChangeToLaunch, hm, hc, hl]
                intro hne
                rw [hmode, hlaunch]
                refine ⟨hm, mc, hc, ?_⟩
                rw [hl]
                rfl
  | changeMap n =>
      refine LaunchInvariant_of_fields w.config w.status _ ?_ ?_ hinv <;>
        (simp only [Trigger, ChangeToMap]; split <;> rfl)
  | changeVehicle n =>
      refine LaunchInvariant_of_fields w.config w.status _ ?_ ?_ hinv <;>
        (simp only [Trigger, ChangeToVehicle]; split <;> rfl)
  | changeDrivingMode t =>
      refine LaunchInvariant_of_fields w.config w.status _ ?_ ?_ hinv <;>
        (simp only [Trigger, ChangeToDrivingMode]; split <;> rfl)
  | runModuleCommand n c => exact hinv
  | runHardwareCommand n c => exact hinv
  | runToolCommand n c => exact hinv
  | submitDriveEvent t m tags => exact hinv

/-- C2: every dispatcher operation preserves the launch invariant: from
the initial empty status, against a config whose mode names are
non-empty (the empty string being the store's sentinel for no mode),
every reachable worker state has `currentLaunch` non-empty only if
`currentMode` is non-empty and `currentLaunch` is a key of the current
mode's launches. -/
theorem Reachable_LaunchInvariant (w0 w : HMIWorker)
    (hinit : w0.status = InitStatus)
    (hwf : w0.config.modes.lookup "" = none)
    (hr : HMIReachable w0 w) :
    LaunchInvariant w.config w.status := by
  induction hr with
  | refl w' =>
      rw [hinit]
      intro hne
      exact absurd rfl hne
  | trigger env a hr ih =>
      rw [Trigger_preserves_config]
      refine Trigger_preserves_LaunchInvariant env _ a ?_ (ih hinit hwf)
      rw [HMIReachable_preserves_config hr]
      exact hwf
  | telemetry observed components hr ih =>
      exact LaunchInvariant_of_fields _ _ _ rfl rfl (ih hinit hwf)

/-- Witness for C2: the sample worker starts in the initial status with
non-empty mode names; after dispatching `ChangeToMode "Mkz Standard"`
the reached state satisfies the launch invariant. -/
theorem Reachable_LaunchInvariant_witness :
    sampleWorker.status = InitStatus ∧
    sampleWorker.config.modes.lookup "" = none ∧
    LaunchInvariant
      (Trigger sampleEnv sampleWorker (HMIAction.changeMode "Mkz Standard")).worker.config
      (Trigger sampleEnv sampleWorker (HMIAction.changeMode "Mkz Standard")).worker.status :=
  ⟨rfl, rfl,
   Reachable_LaunchInvariant sampleWorker _ rfl rfl
     (HMIReachable.trigger sampleEnv (HMIAction.changeMode "Mkz Standard")
       (HMIReachable.refl sampleWorker))⟩

/-!
Interleaving model for the reader/writer discipline around `status_`
(`status_mutex_`, a `boost::shared_mutex`), modelled from the spec: a
mutator holds the writer lock for the whole mutation, `GetStatus` holds
the reader lock while copying the record out.  One writer thread
performs the two field writes of a `ChangeToMode` mutation (mode, then
launch); each reader thread copies the two fields one at a time.
Thread progress is encoded as phase counters and the lock discipline as
side conditions of the step relation; an execution is any interleaving
of these atomic steps.
-/

/-- Global state of the interleaving model: the writer's phase (0 idle,
1 writer lock acquired, 2 mode written, 3 launch written, 4 lock
released), each reader's phase (0 idle, 1 reader lock acquired, 2 mode
copied, 3 launch copied, 4 lock released), the shared status fields,
and each reader's local copy. -/
structure ConcState where
  wphase : Nat
  rphase : Nat → Nat
  statusMode : String
  statusLaunch : String
  copyMode : Nat → String
  copyLaunch : Nat → String

/-- The writer holds the exclusive lock in phases 1 to 3. -/
def wHolds (s : ConcState) : Prop :=
  s.wphase = 1 ∨ s.wphase = 2 ∨ s.wphase = 3

/-- Reader `r` holds the shared lock in phases 1 to 3. -/
def rHolds (s : ConcState) (r : Nat) : Prop :=
  s.rphase r = 1 ∨ s.rphase r = 2 ∨ s.rphase r = 3

/-- Atomic steps of the interleaving, writing mode `nm` and launch `nl`:
the writer may acquire the lock only when no reader holds it, a reader
may acquire only when the writer does not hold it, and each field
access happens only under the respective lock, in program order. -/
inductive CStep (nm nl : String) : ConcState → ConcState → Prop
  | acqW {s : ConcState} (hw : s.wphase = 0) (hr : ∀ r, ¬ rHolds s r) :
      CStep nm nl s { s with wphase := 1 }
  | wrMode {s : ConcState} (h : s.wphase = 1) :
      CStep nm nl s { s with wphase := 2, statusMode := nm }
  | wrLaunch {s : ConcState} (h : s.wphase = 2) :
      CStep nm nl s { s with wphase := 3, statusLaunch := nl }
  | relW {s : ConcState} (h : s.wphase = 3) :
      CStep nm nl s { s with wphase := 4 }
  | acqR {s : ConcState} (r : Nat) (h : s.rphase r = 0) (hw : ¬ wHolds s) :
      CStep nm nl s { s with rphase := Function.update s.rphase r 1 }
  | rdMode {s : ConcState} (r : Nat) (h : s.rphase r = 1) :
      CStep nm nl s
        { s with rphase := Function.update s.rphase r 2,
                 copyMode := Function.update s.copyMode r s.statusMode }
  | rdLaunch {s : ConcState} (r : Nat) (h : s.rphase r = 2) :
      CStep nm nl s
        { s with rphase := Function.update s.rphase r 3,
                 copyLaunch := Function.update s.copyLaunch r s.statusLaunch }
  | relR {s : ConcState} (r : Nat) (h : s.rphase r = 3) :
      CStep nm nl s { s with rphase := Function.update s.rphase r 4 }

/-- Executions: any finite interleaving of atomic steps. -/
inductive CExec (nm nl : String) : ConcState → ConcState → Prop
  | refl (s : ConcState) : CExec nm nl s s
  | step {s t u : ConcState} :
      CExec nm nl s t → CStep nm nl t u → CExec nm nl s u

/-- Initial state: pre-transition status `(om, ol)`, no thread has
started. -/
def CInit (om ol : String) : ConcState :=
  { wphase := 0
    rphase := fun _ => 0
    statusMode := om
    statusLaunch := ol
    copyMode := fun _ => ""
    copyLaunch := fun _ => "" }

/-- Inductive invariant of the interleaving: the shared status is
determined by the writer's phase, lock holding is mutually exclusive
between the writer and every reader, a reader that has copied the mode
but not yet the launch still sees the status mode it copied, and a
reader that has copied both fields holds exactly the pre- or the
post-transition pair. -/
def CInv (om ol nm nl : String) (s : ConcState) : Prop :=
  s.wphase ≤ 4 ∧
  ((s.wphase = 0 ∨ s.wphase = 1) → s.statusMode = om ∧ s.statusLaunch = ol) ∧
  (s.wphase = 2 → s.statusMode = nm ∧ s.statusLaunch = ol) ∧
  ((s.wphase = 3 ∨ s.wphase = 4) → s.statusMode = nm ∧ s.statusLaunch = nl) ∧
  (wHolds s → ∀ r, ¬ rHolds s r) ∧
  (∀ r, s.rphase r = 2 → s.copyMode r = s.statusMode) ∧
  (∀ r, s.rphase r = 3 ∨ s.rphase r = 4 →
    (s.copyMode r = om ∧ s.copyLaunch r = ol) ∨
    (s.copyMode r = nm ∧ s.copyLaunch r = nl))

/-- The invariant holds initially. -/
theorem CInit_CInv (om ol nm nl : String) : CInv om ol nm nl (CInit om ol) := by
  refine ⟨by simp [CInit], fun _ => ⟨rfl, rfl⟩, ?_, ?_, ?_, ?_, ?_⟩
  · intro h; simp [CInit] at h
  · intro h; simp [CInit] at h
  · intro hW; simp [wHolds, CInit] at hW
  · intro r h; simp [CInit] at h
  · intro r h; simp [CInit] at h

/-- Every atomic step preserves the invariant. -/
theorem CStep_preserves_CInv (om ol nm nl : String) {s t : ConcState}
    (hst : CStep nm nl s t) (hinv : CInv om ol nm nl s) :
    CInv om ol nm nl t := by
  obtain ⟨hb, h01, h2, h34, hmx, hr2, hr34⟩ := hinv
  cases hst with
  | acqW hw hr =>
      refine ⟨by norm_num, fun _ => h01 (Or.inl hw), ?_, ?_, ?_, ?_, ?_⟩
      · intro hx; simp at hx
      · intro hx; simp at hx
      · intro _ r'; exact hr r'
      · intro r' h2'; exact absurd (Or.inr (Or.inl h2')) (hr r')
      · intro r' h34'
        cases h34' with
        | inl h3 => exact absurd (Or.inr (Or.inr h3)) (hr r')
        | inr h4 => exact hr34 r' (Or.inr h4)
  | wrMode h =>
      refine ⟨by norm_num, ?_, fun _ => ⟨rfl, (h01 (Or.inr h)).2⟩, ?_, ?_, ?_, ?_⟩
      · intro hx; simp at hx
      · intro hx; simp at hx
      · intro _ r'; exact hmx (Or.inl h) r'
      · intro r' h2'; exact absurd (Or.inr (Or.inl h2')) (hmx (Or.inl h) r')
      · intro r' h34'
        cases h34' with
        | inl h3 => exact absurd (Or.inr (Or.inr h3)) (hmx (Or.inl h) r')
        | inr h4 => simpa using hr34 r' (Or.inr h4)
  | wrLaunch h =>
      refine ⟨by norm_num, ?_, ?_, fun _ => ⟨(h2 h).1, rfl⟩, ?_, ?_, ?_⟩
      · intro hx; simp at hx
      · intro hx; simp at hx
      · intro _ r'; exact hmx (Or.inr (Or.inl h)) r'
      · intro r' h2'
        exact absurd (Or.inr (Or.inl h2')) (hmx (Or.inr (Or.inl h)) r')
      · intro r' h34'
        cases h34' with
        | inl h3 =>
            exact absurd (Or.inr (Or.inr h3)) (hmx (Or.inr (Or.inl h)) r')
        | inr h4 => simpa using hr34 r' (Or.inr h4)
  | relW h =>
      refine ⟨by norm_num, ?_, ?_, fun _ => h34 (Or.inl h), ?_, ?_, ?_⟩
      · intro hx; simp at hx
      · intro hx; simp at hx
      · intro hW; simp [wHolds] at hW
      · intro r' h2'
        exact absurd (Or.inr (Or.inl h2')) (hmx (Or.inr (Or.inr h)) r')
      · intro r' h34'
        cases h34' with
        | inl h3 =>
            exact absurd (Or.inr (Or.inr h3)) (hmx (Or.inr (Or.inr h)) r')
        | inr h4 => exact hr34 r' (Or.inr h4)
  | acqR r h hw =>
      refine ⟨hb, h01, h2, h34, ?_, ?_, ?_⟩
      · intro hW; exact absurd hW hw
      · intro r' h2'
        by_cases he : r' = r
        · rw [he] at h2'; simp [Function.update_same] at h2'
        · have hp : s.rphase r' = 2 := by
            simpa [Function.update_noteq he] using h2'
          simpa using hr2 r' hp
      · intro r' h34'
        by_cases he : r' = r
        · rw [he] at h34'; simp [Function.update_same] at h34'
        · have hp : s.rphase r' = 3 ∨ s.rphase r' = 4 := by
            simpa [Function.update_noteq he] using h34'
          simpa using hr34 r' hp
  | rdMode r h =>
      refine ⟨hb, h01, h2, h34, ?_, ?_, ?_⟩
      · intro hW; exact absurd (Or.inl h) (hmx hW r)
      · intro r' h2'
        by_cases he : r' = r
        · rw [he]; simp [Function.update_same]
        · have hp : s.rphase r' = 2 := by
            simpa [Function.update_noteq he] using h2'
          simpa [Function.update_noteq he] using hr2 r' hp
      · intro r' h34'
        by_cases he : r' = r
        · rw [he] at h34'; simp [Function.update_same] at h34'
        · have hp : s.rphase r' = 3 ∨ s.rphase r' = 4 := by
            simpa [Function.update_noteq he] using h34'
          simpa [Function.update_noteq he] using hr34 r' hp
  | rdLaunch r h =>
      refine ⟨hb, h01, h2, h34, ?_, ?_, ?_⟩
      · intro hW; exact absurd (Or.inr (Or.inl h)) (hmx hW r)
      · intro r' h2'
        by_cases he : r' = r
        · rw [he] at h2'; simp [Function.update_same] at h2'
        · have hp : s.rphase r' = 2 := by
            simpa [Function.update_noteq he] using h2'
          simpa using hr2 r' hp
      · intro r' h34'
        by_cases he : r' = r
        · rw [he]
          have hnw : ¬ wHolds s := fun hW => (hmx hW r) (Or.inr (Or.inl h))
          have hph : s.wphase = 0 ∨ s.wphase = 4 := by
            unfold wHolds at hnw
            omega
          have hcm := hr2 r h
          cases hph with
          | inl h0 =>
              left
              constructor
              · simpa [hcm] using (h01 (Or.inl h0)).1
              · simpa [Function.update_same] using (h01 (Or.inl h0)).2
          | inr h4 =>
              right
              constructor
              · simpa [hcm] using (h34 (Or.inr h4)).1
              · simpa [Function.update_same] using (h34 (Or.inr h4)).2
        · have hp : s.rphase r' = 3 ∨ s.rphase r' = 4 := by
            simpa [Function.update_noteq he] using h34'
          simpa [Function.update_noteq he] using hr34 r' hp
  | relR r h =>
      refine ⟨hb, h01, h2, h34, ?_, ?_, ?_⟩
      · intro hW; exact absurd (Or.inr (Or.inr h)) (hmx hW r)
      · intro r' h2'
        by_cases he : r' = r
        · rw [he] at h2'; simp [Function.update_same] at h2'
        · have hp : s.rphase r' = 2 := by
            simpa [Function.update_noteq he] using h2'
          simpa using hr2 r' hp
      · intro r' h34'
        by_cases he : r' = r
        · rw [he]
          simpa using hr34 r (Or.inl h)
        · have hp : s.rphase r' = 3 ∨ s.rphase r' = 4 := by
            simpa [Function.update_noteq he] using h34'
          simpa using hr34 r' hp

/-- The invariant holds in every state reachable from the initial
state. -/
theorem CExec_CInv (om ol nm nl : String) {s : ConcState}
    (h : CExec nm nl (CInit om ol) s) : CInv om ol nm nl s := by
  induction h with
  | refl => exact CInit_CInv om ol nm nl
  | step hexec hstep ih => exact CStep_preserves_CInv om ol nm nl hstep ih

/-- C6: for any interleaving of concurrent `GetStatus` copies with one
`ChangeToMode` mutation (mode `om`, launch `ol` changed to `nm`, `nl`),
every reader that has finished copying holds either exactly the
pre-transition pair or exactly the post-transition pair — never a mixed
record — because the writer holds the writer lock across the whole
mutation and each reader holds the reader lock across the whole
copy. -/
theorem GetStatus_snapshot_atomic (om ol nm nl : String) (s : ConcState)
    (r : Nat) (hexec : CExec nm nl (CInit om ol) s)
    (hdone : s.rphase r = 3 ∨ s.rphase r = 4) :
    (s.copyMode r = om ∧ s.copyLaunch r = ol) ∨
    (s.copyMode r = nm ∧ s.copyLaunch r = nl) :=
  (CExec_CInv om ol nm nl hexec).2.2.2.2.2.2 r hdone

/-- States of a concrete interleaving where reader 0 copies the whole
record before the writer starts. -/
def concS1 : ConcState :=
  { CInit "A" "a" with rphase := Function.update (CInit "A" "a").rphase 0 1 }

/-- Reader 0 has copied the mode field. -/
def concS2 : ConcState :=
  { concS1 with rphase := Function.update concS1.rphase 0 2,
                copyMode := Function.update concS1.copyMode 0 concS1.statusMode }

/-- Reader 0 has copied the launch field. -/
def concS3 : ConcState :=
  { concS2 with rphase := Function.update concS2.rphase 0 3,
                copyLaunch := Function.update concS2.copyLaunch 0 concS2.statusLaunch }

/-- Reader 0 has released the reader lock. -/
def concS4 : ConcState :=
  { concS3 with rphase := Function.update concS3.rphase 0 4 }

/-- Witness for C6 on a concrete interleaving: reader 0 acquires,
copies mode and launch, and releases before the writer runs; its
snapshot is exactly the pre-transition pair. -/
theorem GetStatus_snapshot_atomic_witness :
    (concS4.rphase 0 = 3 ∨ concS4.rphase 0 = 4) ∧
    ((concS4.copyMode 0 = "A" ∧ concS4.copyLaunch 0 = "a") ∨
     (concS4.copyMode 0 = "B" ∧ concS4.copyLaunch 0 = "b")) := by
  have hexec : CExec "B" "b" (CInit "A" "a") concS4 :=
    CExec.step
      (CExec.step
        (CExec.step
          (CExec.step (CExec.refl (CInit "A" "a"))
            (CStep.acqR 0 rfl (by simp [wHolds, CInit])))
          (CStep.rdMode 0 (by simp [concS1, Function.update_same])))
        (CStep.rdLaunch 0 (by simp [concS2, Function.update_same])))
      (CStep.relR 0 (by simp [concS3, Function.update_same]))
  exact ⟨Or.inr (by simp [concS4, Function.update_same]),
    GetStatus_snapshot_atomic "A" "a" "B" "b" concS4 0 hexec
      (Or.inr (by simp [concS4, Function.update_same]))⟩
